import Mathlib

/-!
Verification of the terrain-aware sunrise/sunset correction program
(`src/mountain_sunset/main.py`).

Modelling conventions:

* Machine floats are modelled as exact rationals (`ℚ`); times are rational
  minutes on an affine time line (the anchor instants are arbitrary
  rationals).
* The external ephemeris provider (`ephem`) is modelled by two abstract
  functions `alt`, `az : ℚ → ℚ` giving `math.degrees(sun.alt)` and
  `math.degrees(sun.az)` at a time instant, and by the anchor instants
  (`standard_sunset`, `standard_sunrise`) passed in as parameters.
* The external elevation provider (one HTTP POST per chunk of at most 100
  points) is modelled by `fetch : List P → Option (List ℚ)`: `some es`
  models a 200 response whose `results` field lists one elevation per
  requested point, `none` models an exception, a timeout or a non-200
  status (the source treats the two failure branches identically: the
  chunk contributes nothing to `all_results`).
* `math.atan` composed with `math.degrees` is modelled by an abstract
  function `atanDeg : ℚ → ℚ`; theorems that depend on properties of the
  real arctangent (value `0` at `0`, range `(-90, 90)` in degrees, strict
  monotonicity / injectivity) take exactly those properties as hypotheses.
* The point type `P` is abstract and `proj : ℚ → ℚ → P` models
  `fun azimuth d => calculate_destination(obs_lat, obs_lon, d, azimuth)`
  with the observer folded in; the geodesic formula itself is embedded
  separately over `ℝ` as `calculate_destination`.
* The `while` loops of the two searches are embedded with an explicit
  fuel argument; `none` means the fuel ran out while the source loop
  would still be running, so statements about loop results quantify over
  (or fix) a sufficient fuel.
-/

/-- Slicing loop `for i in range(0, len(points), chunk_size)` with the
source's hard-coded `chunk_size = 100`, realised by structural recursion
on a fuel that starts at the list length (each step consumes at least one
element, so that fuel is always sufficient). -/
def chunksOf100Aux {α : Type} : ℕ → List α → List (List α)
  | _, [] => []
  | 0, _ => []
  | fuel + 1, l => l.take 100 :: chunksOf100Aux fuel (l.drop 100)

/-- Split a list into the slices `points[i:i+100]` used by the batched
elevation requests. -/
def chunksOf100 {α : Type} (l : List α) : List (List α) :=
  chunksOf100Aux l.length l

/-- The `all_results` accumulation of `get_horizon_elevation_angle`: each
chunk is posted to the elevation provider; a successful chunk extends the
accumulator with its `results`, a failed chunk (exception or non-200
status) contributes nothing and the loop continues. -/
def allResults {P : Type} (fetch : List P → Option (List ℚ)) (points : List P) : List ℚ :=
  (chunksOf100 points).foldl
    (fun acc c =>
      match fetch c with
      | some rs => acc ++ rs
      | none => acc)
    []

/-- Sample distances generated by `d = step_km; while d <= check_distance_km:
... ; d += step_km`, i.e. `step_km, 2*step_km, ...` while `≤
check_distance_km`.  For `0 < step_km` the loop runs exactly
`⌊check_distance_km / step_km⌋` times (exact rational arithmetic); for
`step_km ≤ 0` the source loop either runs zero times (when
`check_distance_km < step_km`) or never terminates, and this model is only
used under a positivity hypothesis where that matters. -/
def sampleDistances (step_km check_distance_km : ℚ) : List ℚ :=
  if 0 < step_km then
    (List.range (Int.toNat ⌊check_distance_km / step_km⌋)).map
      (fun i : ℕ => ((i : ℚ) + 1) * step_km)
  else []

/-- The inner reduction of `get_horizon_elevation_angle`: state
`(max_angle, has_valid_data)` starts at `(-90.0, false)` and each angle
strictly greater than the current maximum replaces it and marks the data
valid. -/
def maxAngleFold (angles : List ℚ) : ℚ × Bool :=
  angles.foldl (fun s a => if a > s.1 then (a, true) else s) (-90, false)

/-- Embedding of `get_horizon_elevation_angle(obs_lat, obs_lon, obs_alt,
azimuth, check_distance_km, step_km)`.  The projection of the observer
along the azimuth is `proj azimuth d`; the elevation provider is `fetch`;
`atanDeg` is `math.degrees ∘ math.atan`.  The pairing of `all_results`
with `distances` mirrors `for i, item in enumerate(all_results): ...
distances[i]` — under the provider contract (a successful chunk returns
exactly one elevation per requested point) `all_results` is never longer
than `distances`, so the `zip` is exact. -/
def get_horizon_elevation_angle {P : Type} (atanDeg : ℚ → ℚ) (proj : ℚ → ℚ → P)
    (fetch : List P → Option (List ℚ))
    (obs_alt azimuth check_distance_km step_km : ℚ) : ℚ :=
  let distances := sampleDistances step_km check_distance_km
  let points := distances.map (proj azimuth)
  if points.isEmpty then 0
  else
    let results := allResults fetch points
    let angles := (results.zip distances).map
      (fun p => atanDeg ((p.1 - obs_alt) / (p.2 * 1000)))
    let st := maxAngleFold angles
    if st.2 = false ∨ st.1 = -90 then 0 else st.1

/-- Modelled from the spec (§4.3 step 5, §7): the maximum angle over the
RESOLVED samples, each sample's elevation paired with the distance of the
point it was requested for; chunks whose request failed contribute no
samples.  This is the comparison definition for the refinement claim
about partial chunk failure; it differs from `get_horizon_elevation_angle`
only in how surviving results are paired with distances. -/
def specMaxResolvedAngle {P : Type} (atanDeg : ℚ → ℚ) (proj : ℚ → ℚ → P)
    (fetch : List P → Option (List ℚ))
    (obs_alt azimuth check_distance_km step_km : ℚ) : ℚ :=
  let distances := sampleDistances step_km check_distance_km
  let samples := distances.map (fun d => (proj azimuth d, d))
  if samples.isEmpty then 0
  else
    let resolved := (chunksOf100 samples).foldl
      (fun acc c =>
        match fetch (c.map Prod.fst) with
        | some es => acc ++ es.zip (c.map Prod.snd)
        | none => acc)
      []
    let angles := resolved.map (fun p => atanDeg ((p.1 - obs_alt) / (p.2 * 1000)))
    let st := maxAngleFold angles
    if st.2 = false ∨ st.1 = -90 then 0 else st.1

/-- Embedding of `get_terrain_altitude`: the single observer-elevation
lookup.  `some e` models a successful request whose parsed body yields
elevation `e`; `none` models any exception (timeout, connection error,
malformed response) — the `except` branch returns `0`. -/
def get_terrain_altitude (lookup : Option ℚ) : ℚ :=
  match lookup with
  | some e => e
  | none => 0

/-- Parameters shared by the two scan loops: the abstract ephemeris
(`alt`, `az`), the abstract arctangent, the observer-folded projector and
elevation provider, the observer elevation and the three tunables from
`settings`. -/
structure ScanEnv (P : Type) where
  alt : ℚ → ℚ
  az : ℚ → ℚ
  atanDeg : ℚ → ℚ
  proj : ℚ → ℚ → P
  fetch : List P → Option (List ℚ)
  obs_alt : ℚ
  check_distance_km : ℚ
  step_km : ℚ
  step_minutes : ℚ

/-- The `terrain_angle` computed by one loop iteration at time `t`:
`get_horizon_elevation_angle(lat, lon, my_elevation, sun_az, check_dist,
step_dist)` with `sun_az` the sun azimuth at `t`. -/
def terrainAngleAt {P : Type} (env : ScanEnv P) (t : ℚ) : ℚ :=
  get_horizon_elevation_angle env.atanDeg env.proj env.fetch env.obs_alt
    (env.az t) env.check_distance_km env.step_km

/-- The sunset `while elapsed_rewind < max_rewind_limit` loop, fused with
the `if found_time is None: found_time = standard_sunset` fallback:
`some anchor` when the budget is exhausted, `some (t + step_minutes)` when
`sun_alt > terrain_angle` first holds at `t`, and `none` when the fuel
runs out while the source loop would still be iterating. -/
def sunsetScanAux {P : Type} (env : ScanEnv P) (anchor : ℚ) :
    ℕ → ℚ → ℚ → Option ℚ
  | fuel, t, elapsed =>
    if 120 ≤ elapsed then some anchor
    else
      match fuel with
      | 0 => none
      | f + 1 =>
        if env.alt t > terrainAngleAt env t then some (t + env.step_minutes)
        else sunsetScanAux env anchor f (t - env.step_minutes) (elapsed + env.step_minutes)

/-- Embedding of the scan part of `calculate_actual_sunset`: starting at
the standard setting instant with zero elapsed rewind, scan backward. -/
def calculate_actual_sunset {P : Type} (env : ScanEnv P) (standard_sunset : ℚ)
    (fuel : ℕ) : Option ℚ :=
  sunsetScanAux env standard_sunset fuel standard_sunset 0

/-- The sunrise `while elapsed_forward < max_forward_limit` loop, fused
with its fallback to the standard rising instant; the found time is
`current_check_time` itself, with no step adjustment. -/
def sunriseScanAux {P : Type} (env : ScanEnv P) (anchor : ℚ) :
    ℕ → ℚ → ℚ → Option ℚ
  | fuel, t, elapsed =>
    if 120 ≤ elapsed then some anchor
    else
      match fuel with
      | 0 => none
      | f + 1 =>
        if env.alt t > terrainAngleAt env t then some t
        else sunriseScanAux env anchor f (t + env.step_minutes) (elapsed + env.step_minutes)

/-- Embedding of the scan part of `calculate_actual_sunrise`: starting at
the standard rising instant with zero elapsed forward time, scan forward. -/
def calculate_actual_sunrise {P : Type} (env : ScanEnv P) (standard_sunrise : ℚ)
    (fuel : ℕ) : Option ℚ :=
  sunriseScanAux env standard_sunrise fuel standard_sunrise 0

/-- Degrees to radians, `math.radians`. -/
noncomputable def radians (x : ℝ) : ℝ := x * Real.pi / 180

/-- Radians to degrees, `math.degrees`. -/
noncomputable def degreesOf (x : ℝ) : ℝ := x * 180 / Real.pi

/-- Two-argument arctangent with the quadrant convention of `math.atan2`
(in particular `atan2 0 x = 0` for `0 ≤ x`, matching Python's
`math.atan2(0.0, x)` for nonnegative `x`). -/
noncomputable def atan2 (y x : ℝ) : ℝ :=
  if 0 < x then Real.arctan (y / x)
  else if x < 0 then
    (if 0 ≤ y then Real.arctan (y / x) + Real.pi else Real.arctan (y / x) - Real.pi)
  else
    (if 0 < y then Real.pi / 2 else if y < 0 then -(Real.pi / 2) else 0)

/-- Embedding of `calculate_destination(lat, lon, distance_km,
bearing_deg)` over exact reals: the spherical direct-geodesic formula with
Earth radius 6371.0 km. -/
noncomputable def calculate_destination (lat lon distance_km bearing_deg : ℝ) : ℝ × ℝ :=
  let R : ℝ := 6371.0
  let lat_rad := radians lat
  let lon_rad := radians lon
  let bearing_rad := radians bearing_deg
  let new_lat_rad := Real.arcsin
    (Real.sin lat_rad * Real.cos (distance_km / R) +
      Real.cos lat_rad * Real.sin (distance_km / R) * Real.cos bearing_rad)
  let new_lon_rad := lon_rad + atan2
    (Real.sin bearing_rad * Real.sin (distance_km / R) * Real.cos lat_rad)
    (Real.cos (distance_km / R) - Real.sin lat_rad * Real.sin new_lat_rad)
  (degreesOf new_lat_rad, degreesOf new_lon_rad)

/-- Test fixture (not part of the source): a scan environment over the
trivial point type whose elevation provider fails every chunk, so every
horizon angle falls back to 0° by the all-failed branch; azimuth constant
0, `atanDeg` constant 0, radius 20 km, sample spacing 2 km. -/
def failFetchEnv (alt : ℚ → ℚ) (step_minutes : ℚ) : ScanEnv Unit where
  alt := alt
  az := fun _ => 0
  atanDeg := fun _ => 0
  proj := fun _ _ => ()
  fetch := fun _ => none
  obs_alt := 0
  check_distance_km := 20
  step_km := 2
  step_minutes := step_minutes

/-- Test fixture (not part of the source): a flat-terrain scan
environment: the elevation provider answers every request with the
observer's own elevation for every point. -/
def flatFetchEnv (alt atanDeg : ℚ → ℚ) (obs_alt step_minutes : ℚ) : ScanEnv Unit where
  alt := alt
  az := fun _ => 0
  atanDeg := atanDeg
  proj := fun _ _ => ()
  fetch := fun c => some (c.map (fun _ => obs_alt))
  obs_alt := obs_alt
  check_distance_km := 20
  step_km := 2
  step_minutes := step_minutes

/-! ### Helper lemmas about the chunked batch lookup -/

theorem chunksOf100Aux_nil {α : Type} (fuel : ℕ) :
    chunksOf100Aux fuel ([] : List α) = [] := by
  cases fuel <;> rfl

theorem chunksOf100Aux_fuel_irrel {α : Type} :
    ∀ (fuel₁ fuel₂ : ℕ) (l : List α), l.length ≤ fuel₁ → l.length ≤ fuel₂ →
      chunksOf100Aux fuel₁ l = chunksOf100Aux fuel₂ l := by
  intro fuel₁
  induction fuel₁ with
  | zero =>
    intro fuel₂ l h₁ _
    have : l = [] := List.eq_nil_of_length_eq_zero (Nat.le_zero.mp h₁)
    subst this
    simp [chunksOf100Aux_nil]
  | succ f ih =>
    intro fuel₂ l h₁ h₂
    cases l with
    | nil => simp [chunksOf100Aux_nil]
    | cons a as =>
      cases fuel₂ with
      | zero => simp at h₂
      | succ g =>
        show (a :: as).take 100 :: chunksOf100Aux f ((a :: as).drop 100) =
          (a :: as).take 100 :: chunksOf100Aux g ((a :: as).drop 100)
        have hlen : ((a :: as).drop 100).length ≤ f := by
          simp only [List.length_drop, List.length_cons] at *
          omega
        have hlen' : ((a :: as).drop 100).length ≤ g := by
          simp only [List.length_drop, List.length_cons] at *
          omega
        rw [ih g _ hlen hlen']

theorem chunksOf100_nil {α : Type} : chunksOf100 ([] : List α) = [] := rfl

theorem chunksOf100_cons {α : Type} (l : List α) (h : l ≠ []) :
    chunksOf100 l = l.take 100 :: chunksOf100 (l.drop 100) := by
  cases l with
  | nil => exact absurd rfl h
  | cons a as =>
    show chunksOf100Aux (as.length + 1) (a :: as) = _
    show (a :: as).take 100 :: chunksOf100Aux as.length ((a :: as).drop 100) = _
    rw [chunksOf100Aux_fuel_irrel as.length ((a :: as).drop 100).length
      ((a :: as).drop 100) (by simp only [List.length_drop, List.length_cons]; omega) le_rfl]
    rfl

theorem allResults_nil {P : Type} (fetch : List P → Option (List ℚ)) :
    allResults fetch [] = [] := rfl

theorem allResults_foldl_acc {P : Type} (fetch : List P → Option (List ℚ)) :
    ∀ (chunks : List (List P)) (acc : List ℚ),
      chunks.foldl
        (fun acc c => match fetch c with | some rs => acc ++ rs | none => acc) acc =
      acc ++ chunks.foldl
        (fun acc c => match fetch c with | some rs => acc ++ rs | none => acc) [] := by
  intro chunks
  induction chunks with
  | nil => intro acc; simp
  | cons c cs ih =>
    intro acc
    simp only [List.foldl_cons]
    rw [ih, ih (match fetch c with | some rs => [] ++ rs | none => [])]
    cases fetch c <;> simp

theorem allResults_success_bounded {P : Type} (fetch : List P → Option (List ℚ)) (f : P → ℚ)
    (hfetch : ∀ c, fetch c = some (c.map f)) :
    ∀ (n : ℕ) (l : List P), l.length ≤ n → allResults fetch l = l.map f := by
  intro n
  induction n with
  | zero =>
    intro l h
    have : l = [] := List.eq_nil_of_length_eq_zero (Nat.le_zero.mp h)
    subst this
    rfl
  | succ n ih =>
    intro l h
    cases l with
    | nil => rfl
    | cons a as =>
      unfold allResults
      rw [chunksOf100_cons _ (by simp), List.foldl_cons, allResults_foldl_acc]
      have hdrop : allResults fetch ((a :: as).drop 100) = ((a :: as).drop 100).map f := by
        apply ih
        simp only [List.length_drop, List.length_cons] at *
        omega
      unfold allResults at hdrop
      rw [hdrop]
      simp only [hfetch]
      simp [← List.map_append]

theorem allResults_success {P : Type} (fetch : List P → Option (List ℚ)) (f : P → ℚ)
    (hfetch : ∀ c, fetch c = some (c.map f)) (l : List P) :
    allResults fetch l = l.map f :=
  allResults_success_bounded fetch f hfetch l.length l le_rfl

theorem allResults_allFail {P : Type} (fetch : List P → Option (List ℚ))
    (hfetch : ∀ c, fetch c = none) (l : List P) :
    allResults fetch l = [] := by
  unfold allResults
  induction chunksOf100 l with
  | nil => rfl
  | cons c cs ih =>
    rw [List.foldl_cons]
    have hstep : (match fetch c with
        | some rs => ([] : List ℚ) ++ rs
        | none => ([] : List ℚ)) = [] := by
      rw [hfetch]
    rw [hstep]
    exact ih

/-! ### Helper lemmas about the angle reduction -/

theorem maxAngleFold_from_const (a₀ : ℚ) (b : Bool) :
    ∀ l : List ℚ, (∀ a ∈ l, a = a₀) →
      l.foldl (fun s a => if a > s.1 then (a, true) else s) (a₀, b) = (a₀, b) := by
  intro l
  induction l with
  | nil => intro _; rfl
  | cons x xs ih =>
    intro h
    have hx : x = a₀ := h x (by simp)
    subst hx
    simp only [List.foldl_cons, gt_iff_lt, lt_self_iff_false, if_false]
    exact ih (fun a ha => h a (by simp [ha]))

theorem maxAngleFold_const (a₀ : ℚ) (h : -90 < a₀) :
    ∀ l : List ℚ, l ≠ [] → (∀ a ∈ l, a = a₀) → maxAngleFold l = (a₀, true) := by
  intro l hne hall
  cases l with
  | nil => exact absurd rfl hne
  | cons x xs =>
    have hx : x = a₀ := hall x (by simp)
    subst hx
    unfold maxAngleFold
    simp only [List.foldl_cons, gt_iff_lt, h, if_true]
    exact maxAngleFold_from_const x true xs (fun a ha => hall a (by simp [ha]))

theorem horizonAngle_allFail {P : Type} (atanDeg : ℚ → ℚ) (proj : ℚ → ℚ → P)
    (fetch : List P → Option (List ℚ))
    (hfetch : ∀ c, fetch c = none)
    (obs_alt azimuth check_distance_km step_km : ℚ) :
    get_horizon_elevation_angle atanDeg proj fetch obs_alt azimuth
      check_distance_km step_km = 0 := by
  unfold get_horizon_elevation_angle
  by_cases hp : ((sampleDistances step_km check_distance_km).map (proj azimuth)).isEmpty
  · simp [hp]
  · simp only [hp, Bool.false_eq_true, if_false]
    rw [allResults_allFail fetch hfetch]
    simp [maxAngleFold]

theorem flat_angles (atanDeg : ℚ → ℚ) (obs_alt : ℚ) :
    ∀ l : List ℚ, ((l.map (fun _ => obs_alt)).zip l).map
        (fun p => atanDeg ((p.1 - obs_alt) / (p.2 * 1000))) =
      l.map (fun _ => atanDeg 0) := by
  intro l
  induction l with
  | nil => rfl
  | cons d ds ih =>
    simp only [List.map_cons, List.zip_cons_cons, sub_self, zero_div, ih]

theorem horizonAngle_flat {P : Type} (atanDeg : ℚ → ℚ) (proj : ℚ → ℚ → P)
    (fetch : List P → Option (List ℚ)) (obs_alt : ℚ)
    (hfetch : ∀ c, fetch c = some (c.map (fun _ => obs_alt)))
    (hrange : -90 < atanDeg 0)
    (azimuth check_distance_km step_km : ℚ) :
    get_horizon_elevation_angle atanDeg proj fetch obs_alt azimuth
      check_distance_km step_km =
      if sampleDistances step_km check_distance_km = [] then 0 else atanDeg 0 := by
  unfold get_horizon_elevation_angle
  by_cases hp : sampleDistances step_km check_distance_km = []
  · simp [hp]
  · have hp' : ((sampleDistances step_km check_distance_km).map (proj azimuth)).isEmpty
        = false := by simp [hp]
    simp only [hp, hp', Bool.false_eq_true, if_false]
    rw [allResults_success fetch (fun _ => obs_alt) hfetch]
    rw [List.map_map]
    have hcomp : (sampleDistances step_km check_distance_km).map
        ((fun _ => obs_alt) ∘ proj azimuth) =
        (sampleDistances step_km check_distance_km).map (fun _ => obs_alt) := rfl
    rw [hcomp, flat_angles]
    have hne : (sampleDistances step_km check_distance_km).map (fun _ => atanDeg 0) ≠ [] := by
      simpa [List.map_eq_nil_iff] using hp
    rw [maxAngleFold_const (atanDeg 0) hrange _ hne (by simp)]
    have hguard : ¬ ((true = false) ∨ atanDeg 0 = -90) := by
      push_neg
      refine ⟨by simp, ?_⟩
      intro hcon
      rw [hcon] at hrange
      exact absurd hrange (by norm_num)
    simp only [hguard, if_false]

/-! ### Helper lemmas about the two scan loops -/

theorem sunsetScanAux_isSome {P : Type} (env : ScanEnv P) (anchor : ℚ) :
    ∀ (fuel : ℕ) (t e : ℚ), 120 ≤ e + (fuel : ℚ) * env.step_minutes →
      (sunsetScanAux env anchor fuel t e).isSome := by
  intro fuel
  induction fuel with
  | zero =>
    intro t e h
    have he : (120 : ℚ) ≤ e := by push_cast at h; linarith
    rw [sunsetScanAux]
    simp [he]
  | succ f ih =>
    intro t e h
    rw [sunsetScanAux]
    by_cases he : (120 : ℚ) ≤ e
    · simp [he]
    · simp only [he, if_false]
      by_cases hc : env.alt t > terrainAngleAt env t
      · simp [hc]
      · simp only [hc, if_false]
        apply ih
        push_cast at h ⊢
        linarith

theorem sunriseScanAux_isSome {P : Type} (env : ScanEnv P) (anchor : ℚ) :
    ∀ (fuel : ℕ) (t e : ℚ), 120 ≤ e + (fuel : ℚ) * env.step_minutes →
      (sunriseScanAux env anchor fuel t e).isSome := by
  intro fuel
  induction fuel with
  | zero =>
    intro t e h
    have he : (120 : ℚ) ≤ e := by push_cast at h; linarith
    rw [sunriseScanAux]
    simp [he]
  | succ f ih =>
    intro t e h
    rw [sunriseScanAux]
    by_cases he : (120 : ℚ) ≤ e
    · simp [he]
    · simp only [he, if_false]
      by_cases hc : env.alt t > terrainAngleAt env t
      · simp [hc]
      · simp only [hc, if_false]
        apply ih
        push_cast at h ⊢
        linarith

theorem sunsetScanAux_exhaust {P : Type} (env : ScanEnv P) (anchor : ℚ)
    (hnc : ∀ t, ¬ env.alt t > terrainAngleAt env t) :
    ∀ (fuel : ℕ) (t e : ℚ), 120 ≤ e + (fuel : ℚ) * env.step_minutes →
      sunsetScanAux env anchor fuel t e = some anchor := by
  intro fuel
  induction fuel with
  | zero =>
    intro t e h
    have he : (120 : ℚ) ≤ e := by push_cast at h; linarith
    rw [sunsetScanAux]
    simp [he]
  | succ f ih =>
    intro t e h
    rw [sunsetScanAux]
    by_cases he : (120 : ℚ) ≤ e
    · simp [he]
    · simp only [he, if_false, hnc t, if_false]
      apply ih
      push_cast at h ⊢
      linarith

theorem sunriseScanAux_exhaust {P : Type} (env : ScanEnv P) (anchor : ℚ)
    (hnc : ∀ t, ¬ env.alt t > terrainAngleAt env t) :
    ∀ (fuel : ℕ) (t e : ℚ), 120 ≤ e + (fuel : ℚ) * env.step_minutes →
      sunriseScanAux env anchor fuel t e = some anchor := by
  intro fuel
  induction fuel with
  | zero =>
    intro t e h
    have he : (120 : ℚ) ≤ e := by push_cast at h; linarith
    rw [sunriseScanAux]
    simp [he]
  | succ f ih =>
    intro t e h
    rw [sunriseScanAux]
    by_cases he : (120 : ℚ) ≤ e
    · simp [he]
    · simp only [he, if_false, hnc t, if_false]
      apply ih
      push_cast at h ⊢
      linarith

theorem sunsetScanAux_divergent {P : Type} (env : ScanEnv P) (anchor : ℚ)
    (hstep : env.step_minutes ≤ 0)
    (hnc : ∀ t, ¬ env.alt t > terrainAngleAt env t) :
    ∀ (fuel : ℕ) (t e : ℚ), e < 120 → sunsetScanAux env anchor fuel t e = none := by
  intro fuel
  induction fuel with
  | zero =>
    intro t e h
    rw [sunsetScanAux]
    simp [not_le.mpr h]
  | succ f ih =>
    intro t e h
    rw [sunsetScanAux]
    simp only [not_le.mpr h, if_false, hnc t, if_false]
    exact ih _ _ (by linarith)

theorem sunriseScanAux_divergent {P : Type} (env : ScanEnv P) (anchor : ℚ)
    (hstep : env.step_minutes ≤ 0)
    (hnc : ∀ t, ¬ env.alt t > terrainAngleAt env t) :
    ∀ (fuel : ℕ) (t e : ℚ), e < 120 → sunriseScanAux env anchor fuel t e = none := by
  intro fuel
  induction fuel with
  | zero =>
    intro t e h
    rw [sunriseScanAux]
    simp [not_le.mpr h]
  | succ f ih =>
    intro t e h
    rw [sunriseScanAux]
    simp only [not_le.mpr h, if_false, hnc t, if_false]
    exact ih _ _ (by linarith)

theorem sunsetScanAux_first_cross {P : Type} (env : ScanEnv P) (anchor : ℚ) :
    ∀ (k : ℕ) (fuel : ℕ) (t e : ℚ), k < fuel →
      (∀ j : ℕ, j < k →
        ¬ env.alt (t - (j : ℚ) * env.step_minutes) >
          terrainAngleAt env (t - (j : ℚ) * env.step_minutes)) →
      (∀ j : ℕ, j ≤ k → e + (j : ℚ) * env.step_minutes < 120) →
      env.alt (t - (k : ℚ) * env.step_minutes) >
        terrainAngleAt env (t - (k : ℚ) * env.step_minutes) →
      sunsetScanAux env anchor fuel t e =
        some (t - (k : ℚ) * env.step_minutes + env.step_minutes) := by
  intro k
  induction k with
  | zero =>
    intro fuel t e hfuel _ hbudget hcross
    have he : ¬ (120 : ℚ) ≤ e := by
      have := hbudget 0 le_rfl
      push_cast at this
      linarith
    cases fuel with
    | zero => omega
    | succ f =>
      rw [sunsetScanAux]
      simp only [he, if_false]
      simp only [Nat.cast_zero, zero_mul, sub_zero] at hcross ⊢
      simp [hcross]
  | succ k ih =>
    intro fuel t e hfuel hk hbudget hcross
    have he : ¬ (120 : ℚ) ≤ e := by
      have := hbudget 0 (by omega)
      push_cast at this
      linarith
    cases fuel with
    | zero => omega
    | succ f =>
      rw [sunsetScanAux]
      simp only [he, if_false]
      have h0 : ¬ env.alt t > terrainAngleAt env t := by
        have := hk 0 (by omega)
        simpa using this
      simp only [h0, if_false]
      have hres := ih f (t - env.step_minutes) (e + env.step_minutes) (by omega)
        (by
          intro j hj
          have := hk (j + 1) (by omega)
          have harg : t - env.step_minutes - (j : ℚ) * env.step_minutes =
              t - ((j : ℕ) + 1 : ℚ) * env.step_minutes := by ring
          rw [harg]
          convert this using 3 <;> push_cast <;> ring)
        (by
          intro j hj
          have := hbudget (j + 1) (by omega)
          push_cast at this ⊢
          linarith)
        (by
          have harg : t - env.step_minutes - (k : ℚ) * env.step_minutes =
              t - ((k : ℕ) + 1 : ℚ) * env.step_minutes := by ring
          rw [harg]
          convert hcross using 3 <;> push_cast <;> ring)
      rw [hres]
      congr 1
      push_cast
      ring

theorem sunriseScanAux_first_cross {P : Type} (env : ScanEnv P) (anchor : ℚ) :
    ∀ (k : ℕ) (fuel : ℕ) (t e : ℚ), k < fuel →
      (∀ j : ℕ, j < k →
        ¬ env.alt (t + (j : ℚ) * env.step_minutes) >
          terrainAngleAt env (t + (j : ℚ) * env.step_minutes)) →
      (∀ j : ℕ, j ≤ k → e + (j : ℚ) * env.step_minutes < 120) →
      env.alt (t + (k : ℚ) * env.step_minutes) >
        terrainAngleAt env (t + (k : ℚ) * env.step_minutes) →
      sunriseScanAux env anchor fuel t e =
        some (t + (k : ℚ) * env.step_minutes) := by
  intro k
  induction k with
  | zero =>
    intro fuel t e hfuel _ hbudget hcross
    have he : ¬ (120 : ℚ) ≤ e := by
      have := hbudget 0 le_rfl
      push_cast at this
      linarith
    cases fuel with
    | zero => omega
    | succ f =>
      rw [sunriseScanAux]
      simp only [he, if_false]
      simp only [Nat.cast_zero, zero_mul, add_zero] at hcross ⊢
      simp [hcross]
  | succ k ih =>
    intro fuel t e hfuel hk hbudget hcross
    have he : ¬ (120 : ℚ) ≤ e := by
      have := hbudget 0 (by omega)
      push_cast at this
      linarith
    cases fuel with
    | zero => omega
    | succ f =>
      rw [sunriseScanAux]
      simp only [he, if_false]
      have h0 : ¬ env.alt t > terrainAngleAt env t := by
        have := hk 0 (by omega)
        simpa using this
      simp only [h0, if_false]
      have hres := ih f (t + env.step_minutes) (e + env.step_minutes) (by omega)
        (by
          intro j hj
          have := hk (j + 1) (by omega)
          have harg : t + env.step_minutes + (j : ℚ) * env.step_minutes =
              t + ((j : ℕ) + 1 : ℚ) * env.step_minutes := by ring
          rw [harg]
          convert this using 3 <;> push_cast <;> ring)
        (by
          intro j hj
          have := hbudget (j + 1) (by omega)
          push_cast at this ⊢
          linarith)
        (by
          have harg : t + env.step_minutes + (k : ℚ) * env.step_minutes =
              t + ((k : ℕ) + 1 : ℚ) * env.step_minutes := by ring
          rw [harg]
          convert hcross using 3 <;> push_cast <;> ring)
      rw [hres]
      congr 1
      push_cast
      ring

/-! ### Helper lemmas about the test fixtures -/

theorem terrainAngle_failFetchEnv (alt : ℚ → ℚ) (step_minutes t : ℚ) :
    terrainAngleAt (failFetchEnv alt step_minutes) t = 0 :=
  horizonAngle_allFail _ _ _ (fun _ => rfl) _ _ _ _

theorem sampleDistances_2_20_ne_nil : sampleDistances 2 20 ≠ [] := by
  unfold sampleDistances
  norm_num

theorem terrainAngle_flatFetchEnv (alt atanDeg : ℚ → ℚ) (obs_alt step_minutes t : ℚ)
    (hrange : -90 < atanDeg 0) :
    terrainAngleAt (flatFetchEnv alt atanDeg obs_alt step_minutes) t = atanDeg 0 := by
  unfold terrainAngleAt
  simp only [flatFetchEnv]
  rw [horizonAngle_flat atanDeg _ _ obs_alt (fun _ => rfl) hrange]
  simp [sampleDistances_2_20_ne_nil]

theorem maxAngleFold_singleton (a : ℚ) (h : -90 < a) : maxAngleFold [a] = (a, true) := by
  unfold maxAngleFold
  simp [h]

theorem atan2_zero_nonneg (x : ℝ) (hx : 0 ≤ x) : atan2 0 x = 0 := by
  unfold atan2
  rcases eq_or_lt_of_le hx with h | h
  · simp [← h]
  · simp [h, Real.arctan_zero]

/-! ### Claim theorems -/

/-- C10: if the single observer-elevation lookup fails with any exception,
`get_terrain_altitude` returns `0` and the run proceeds with observer
elevation 0 m — every horizon angle of the run is then computed with
`relative_height = terrain_alt - 0`, i.e. relative to sea level — with no
error surfaced to the caller (the function is total and never propagates
the failure). -/
theorem terrain_altitude_failure_defaults_to_zero :
    get_terrain_altitude none = 0 ∧
    (∀ e : ℚ, get_terrain_altitude (some e) = e) ∧
    (∀ (P : Type) (atanDeg : ℚ → ℚ) (proj : ℚ → ℚ → P)
        (fetch : List P → Option (List ℚ)) (azimuth check_distance_km step_km : ℚ),
      get_horizon_elevation_angle atanDeg proj fetch (get_terrain_altitude none)
          azimuth check_distance_km step_km =
        get_horizon_elevation_angle atanDeg proj fetch 0
          azimuth check_distance_km step_km) :=
  ⟨rfl, fun _ => rfl, fun _ _ _ _ _ _ _ => rfl⟩

/-- C6: if the 120-minute rewind (sunset) or forward (sunrise) budget is
exhausted without any examined instant satisfying
`sun_altitude > horizon_angle`, both searches return exactly the standard
ephemeris event instant passed in as the anchor, rather than failing.  The
fuel hypothesis `120 ≤ fuel * step_minutes` says the fuel suffices for the
source loop to reach budget exhaustion. -/
theorem search_exhaustion_returns_standard_event {P : Type} (env : ScanEnv P)
    (anchor_set anchor_rise : ℚ) (fuel : ℕ)
    (hnc : ∀ t, ¬ env.alt t > terrainAngleAt env t)
    (hfuel : 120 ≤ (fuel : ℚ) * env.step_minutes) :
    calculate_actual_sunset env anchor_set fuel = some anchor_set ∧
    calculate_actual_sunrise env anchor_rise fuel = some anchor_rise :=
  ⟨sunsetScanAux_exhaust env anchor_set hnc fuel anchor_set 0 (by linarith),
   sunriseScanAux_exhaust env anchor_rise hnc fuel anchor_rise 0 (by linarith)⟩

/-- C6 witness: with an elevation provider that always fails (flat 0°
horizon) and a sun that stays at altitude -1°, both searches with step 2
and fuel 60 exhaust the 120-minute budget and return their anchors. -/
theorem search_exhaustion_returns_standard_event_witness :
    calculate_actual_sunset (failFetchEnv (fun _ => -1) 2) 0 60 = some 0 ∧
    calculate_actual_sunrise (failFetchEnv (fun _ => -1) 2) 5 60 = some 5 :=
  search_exhaustion_returns_standard_event (failFetchEnv (fun _ => -1) 2) 0 5 60
    (fun t => by rw [terrainAngle_failFetchEnv]; norm_num [failFetchEnv])
    (by norm_num [failFetchEnv])

/-- C9: for `step_minutes > 0` both scan loops terminate within
`⌈120 / step_minutes⌉` iterations (that much fuel never runs out), since
the elapsed counter grows by `step_minutes` per iteration toward the fixed
120-minute limit; for `step_minutes ≤ 0` the elapsed counter is
non-increasing, so if no examined instant ever satisfies
`sun_altitude > horizon_angle` the loop never terminates (every finite
fuel runs out). -/
theorem scan_loops_terminate {P : Type} (env : ScanEnv P) (anchor_set anchor_rise : ℚ) :
    (0 < env.step_minutes →
      (calculate_actual_sunset env anchor_set ⌈(120 : ℚ) / env.step_minutes⌉₊).isSome ∧
      (calculate_actual_sunrise env anchor_rise ⌈(120 : ℚ) / env.step_minutes⌉₊).isSome) ∧
    (env.step_minutes ≤ 0 → (∀ t, ¬ env.alt t > terrainAngleAt env t) →
      ∀ fuel : ℕ, calculate_actual_sunset env anchor_set fuel = none ∧
        calculate_actual_sunrise env anchor_rise fuel = none) := by
  constructor
  · intro hstep
    have hne : env.step_minutes ≠ 0 := ne_of_gt hstep
    have h1 : (120 / env.step_minutes : ℚ) ≤ (⌈(120 : ℚ) / env.step_minutes⌉₊ : ℚ) :=
      Nat.le_ceil _
    have h2 : (120 : ℚ) ≤ (⌈(120 : ℚ) / env.step_minutes⌉₊ : ℚ) * env.step_minutes := by
      have h3 := mul_le_mul_of_nonneg_right h1 (le_of_lt hstep)
      rwa [div_mul_cancel₀ _ hne] at h3
    exact ⟨sunsetScanAux_isSome env anchor_set _ anchor_set 0 (by linarith),
      sunriseScanAux_isSome env anchor_rise _ anchor_rise 0 (by linarith)⟩
  · intro hstep hnc fuel
    exact ⟨sunsetScanAux_divergent env anchor_set hstep hnc fuel anchor_set 0 (by norm_num),
      sunriseScanAux_divergent env anchor_rise hstep hnc fuel anchor_rise 0 (by norm_num)⟩

/-- C9 witness: with step 7 the sunset scan completes on fuel
`⌈120/7⌉ = 18`; with step 0 and a sun that never clears the (flat, 0°)
horizon the scan is still running after any amount of fuel, e.g. 5. -/
theorem scan_loops_terminate_witness :
    (calculate_actual_sunset (failFetchEnv (fun _ => -1) 7) 0 ⌈(120 : ℚ) / 7⌉₊).isSome ∧
    calculate_actual_sunset (failFetchEnv (fun _ => -1) 0) 0 5 = none := by
  constructor
  · exact ((scan_loops_terminate (failFetchEnv (fun _ => -1) 7) 0 0).1
      (by norm_num [failFetchEnv])).1
  · exact ((scan_loops_terminate (failFetchEnv (fun _ => -1) 0) 0 0).2
      (by norm_num [failFetchEnv])
      (fun t => by rw [terrainAngle_failFetchEnv]; norm_num [failFetchEnv]) 5).1

/-- C2: for a flat-terrain observer (every elevation request answers with
the observer's own elevation, so every horizon angle is `atanDeg 0 = 0`),
the sunset search returns exactly the standard setting instant and the
sunrise search returns exactly the standard rising instant.  The
hypotheses on `alt` state the defining property of the standard events at
step resolution: at the setting instant the sun is no longer above the 0°
horizon but one step earlier it was; at the rising instant it is above. -/
theorem flat_terrain_returns_standard_events {P : Type} (env : ScanEnv P)
    (anchor_set anchor_rise : ℚ) (fuel_set fuel_rise : ℕ)
    (hflat : ∀ c, env.fetch c = some (c.map (fun _ => env.obs_alt)))
    (hatan : env.atanDeg 0 = 0)
    (hset0 : env.alt anchor_set ≤ 0)
    (hset1 : env.alt (anchor_set - env.step_minutes) > 0)
    (hrise0 : env.alt anchor_rise > 0)
    (hfs : 2 ≤ fuel_set) (hfr : 1 ≤ fuel_rise) :
    calculate_actual_sunset env anchor_set fuel_set = some anchor_set ∧
    calculate_actual_sunrise env anchor_rise fuel_rise = some anchor_rise := by
  have hterr : ∀ t, terrainAngleAt env t = 0 := by
    intro t
    rw [terrainAngleAt, horizonAngle_flat env.atanDeg env.proj env.fetch env.obs_alt hflat
      (by rw [hatan]; norm_num)]
    split_ifs <;> simp [hatan]
  constructor
  · cases fuel_set with
    | zero => omega
    | succ f1 =>
      cases f1 with
      | zero => omega
      | succ f2 =>
        unfold calculate_actual_sunset
        rw [sunsetScanAux]
        have h0 : ¬ (120 : ℚ) ≤ 0 := by norm_num
        simp only [h0, if_false]
        rw [hterr anchor_set]
        have hng : ¬ env.alt anchor_set > 0 := not_lt.mpr hset0
        simp only [hng, if_false]
        rw [sunsetScanAux]
        by_cases h120 : (120 : ℚ) ≤ 0 + env.step_minutes
        · rw [if_pos h120]
        · simp only [h120, if_false]
          rw [hterr (anchor_set - env.step_minutes)]
          simp only [hset1, if_true]
          rw [sub_add_cancel]
  · cases fuel_rise with
    | zero => omega
    | succ f1 =>
      unfold calculate_actual_sunrise
      rw [sunriseScanAux]
      have h0 : ¬ (120 : ℚ) ≤ 0 := by norm_num
      simp only [h0, if_false]
      rw [hterr anchor_rise]
      simp only [hrise0, if_true]

/-- C2 witness: observer elevation 5 m, flat provider, sun altitude
`-t` (degrees) as a function of time `t` (minutes): the standard setting
anchor 0 satisfies `alt 0 = 0 ≤ 0` and `alt (0-2) = 2 > 0`, the standard
rising anchor -5 satisfies `alt (-5) = 5 > 0`; both searches return their
anchors. -/
theorem flat_terrain_returns_standard_events_witness :
    calculate_actual_sunset (flatFetchEnv (fun t => -t) (fun _ => 0) 5 2) 0 2 = some 0 ∧
    calculate_actual_sunrise (flatFetchEnv (fun t => -t) (fun _ => 0) 5 2) (-5) 1 =
      some (-5) :=
  flat_terrain_returns_standard_events (flatFetchEnv (fun t => -t) (fun _ => 0) 5 2)
    0 (-5) 2 1 (fun _ => rfl) rfl
    (by norm_num [flatFetchEnv])
    (by norm_num [flatFetchEnv])
    (by norm_num [flatFetchEnv])
    le_rfl le_rfl

/-- C3: scanning backward from the standard setting instant in fixed
steps, if the first examined instant where `sun_altitude > horizon_angle`
holds is the `k`-th one, `anchor - k*step_minutes` (so at every
earlier-examined instant `sun_altitude ≤ horizon_angle` held and the scan
continued backward, all within the 120-minute budget), then the search
stops there and returns that instant plus one step. -/
theorem sunset_scan_first_crossing {P : Type} (env : ScanEnv P) (anchor : ℚ)
    (k fuel : ℕ) (hfuel : k < fuel)
    (hbefore : ∀ j : ℕ, j < k →
      ¬ env.alt (anchor - (j : ℚ) * env.step_minutes) >
        terrainAngleAt env (anchor - (j : ℚ) * env.step_minutes))
    (hbudget : ∀ j : ℕ, j ≤ k → (j : ℚ) * env.step_minutes < 120)
    (hcross : env.alt (anchor - (k : ℚ) * env.step_minutes) >
      terrainAngleAt env (anchor - (k : ℚ) * env.step_minutes)) :
    calculate_actual_sunset env anchor fuel =
      some (anchor - (k : ℚ) * env.step_minutes + env.step_minutes) :=
  sunsetScanAux_first_cross env anchor k fuel anchor 0 hfuel hbefore
    (fun j hj => by have := hbudget j hj; linarith) hcross

/-- C3 witness: flat 0° horizon (all elevation requests fail), sun
altitude -1° at the anchor 0 and at -2 but 1° at -4: the backward scan
with step 2 examines 0 and -2 without a crossing, first crosses at -4,
and returns -4 + 2 = -2. -/
theorem sunset_scan_first_crossing_witness :
    calculate_actual_sunset (failFetchEnv (fun t => if t = -4 then 1 else -1) 2) 0 3 =
      some (-2) := by
  have h := sunset_scan_first_crossing
    (failFetchEnv (fun t => if t = -4 then 1 else -1) 2) 0 2 3
    (by norm_num)
    (by
      intro j hj
      rw [terrainAngle_failFetchEnv]
      interval_cases j <;> norm_num [failFetchEnv])
    (by
      intro j hj
      interval_cases j <;> norm_num [failFetchEnv])
    (by
      rw [terrainAngle_failFetchEnv]
      norm_num [failFetchEnv])
  rw [h]
  norm_num [failFetchEnv]

/-- C4: scanning forward from the standard rising instant in fixed steps,
the first examined instant where `sun_altitude > horizon_angle` holds —
the `k`-th one, `anchor + k*step_minutes`, all earlier ones having
satisfied `sun_altitude ≤ horizon_angle` within the 120-minute budget —
is returned directly as the corrected sunrise, with no step-size
adjustment (contrast the sunset case, which adds one step). -/
theorem sunrise_scan_first_crossing {P : Type} (env : ScanEnv P) (anchor : ℚ)
    (k fuel : ℕ) (hfuel : k < fuel)
    (hbefore : ∀ j : ℕ, j < k →
      ¬ env.alt (anchor + (j : ℚ) * env.step_minutes) >
        terrainAngleAt env (anchor + (j : ℚ) * env.step_minutes))
    (hbudget : ∀ j : ℕ, j ≤ k → (j : ℚ) * env.step_minutes < 120)
    (hcross : env.alt (anchor + (k : ℚ) * env.step_minutes) >
      terrainAngleAt env (anchor + (k : ℚ) * env.step_minutes)) :
    calculate_actual_sunrise env anchor fuel =
      some (anchor + (k : ℚ) * env.step_minutes) :=
  sunriseScanAux_first_cross env anchor k fuel anchor 0 hfuel hbefore
    (fun j hj => by have := hbudget j hj; linarith) hcross

/-- C4 witness: flat 0° horizon, sun altitude -1° at the anchor 0 and at
2 but 1° at 4: the forward scan with step 2 examines 0 and 2 without a
crossing, first crosses at 4, and returns 4 itself (no step added). -/
theorem sunrise_scan_first_crossing_witness :
    calculate_actual_sunrise (failFetchEnv (fun t => if t = 4 then 1 else -1) 2) 0 3 =
      some 4 := by
  have h := sunrise_scan_first_crossing
    (failFetchEnv (fun t => if t = 4 then 1 else -1) 2) 0 2 3
    (by norm_num)
    (by
      intro j hj
      rw [terrainAngle_failFetchEnv]
      interval_cases j <;> norm_num [failFetchEnv])
    (by
      intro j hj
      interval_cases j <;> norm_num [failFetchEnv])
    (by
      rw [terrainAngle_failFetchEnv]
      norm_num [failFetchEnv])
  rw [h]
  norm_num [failFetchEnv]

/-- C5 counterexample: the searches contain no explicit branch reporting
the first sampled instant when the sun's altitude is below 0° there.  At
the first sampled instant 0 the altitude is -5° (below the mathematical
horizon), yet the sunrise search does not report 0: it falls through to
the general comparison (-5 ≤ 0° horizon), keeps scanning, and returns 2. -/
theorem below_horizon_short_circuit_cex :
    calculate_actual_sunrise (failFetchEnv (fun t => if t ≤ 0 then -5 else 1) 2) 0 61 =
        some 2 ∧
    (failFetchEnv (fun t => if t ≤ 0 then -5 else 1) 2).alt 0 < 0 ∧
    (2 : ℚ) ≠ 0 := by
  refine ⟨?_, by norm_num [failFetchEnv], by norm_num⟩
  have h := sunriseScanAux_first_cross
    (failFetchEnv (fun t => if t ≤ 0 then -5 else 1) 2) 0 1 61 0 0
    (by norm_num)
    (by
      intro j hj
      rw [terrainAngle_failFetchEnv]
      interval_cases j <;> norm_num [failFetchEnv])
    (by
      intro j hj
      interval_cases j <;> norm_num [failFetchEnv])
    (by
      rw [terrainAngle_failFetchEnv]
      norm_num [failFetchEnv])
  rw [calculate_actual_sunrise, h]
  norm_num [failFetchEnv]

/-- C5 amended: neither search has a first-instant below-0° short
circuit; the first sampled instant is governed solely by the general
`sun_altitude > horizon_angle` comparison.  In particular, when the
altitude at the anchor is below 0° but above a (negative) horizon angle,
the sunrise search returns the anchor and the sunset search returns the
anchor plus one step — exactly what the general comparison dictates. -/
theorem below_horizon_general_comparison {P : Type} (env : ScanEnv P) (anchor : ℚ)
    (fuel : ℕ)
    (hneg : env.alt anchor < 0)
    (hcross : env.alt anchor > terrainAngleAt env anchor) :
    calculate_actual_sunset env anchor (fuel + 1) = some (anchor + env.step_minutes) ∧
    calculate_actual_sunrise env anchor (fuel + 1) = some anchor := by
  have h0 : ¬ (120 : ℚ) ≤ 0 := by norm_num
  constructor
  · rw [calculate_actual_sunset, sunsetScanAux]
    simp only [h0, if_false, hcross, if_true]
  · rw [calculate_actual_sunrise, sunriseScanAux]
    simp only [h0, if_false, hcross, if_true]

/-- C5 amended witness: flat provider with observer elevation 3 and an
angle map that is constantly -10 (so every horizon angle is -10°), sun
altitude constantly -5°: at the anchor 0 the altitude is below 0° yet
above the horizon angle, so the sunset search returns 0 + 2 and the
sunrise search returns 0. -/
theorem below_horizon_general_comparison_witness :
    calculate_actual_sunset (flatFetchEnv (fun _ => -5) (fun _ => -10) 3 2) 0 5 =
        some 2 ∧
    calculate_actual_sunrise (flatFetchEnv (fun _ => -5) (fun _ => -10) 3 2) 0 5 =
        some 0 := by
  have h := below_horizon_general_comparison
    (flatFetchEnv (fun _ => -5) (fun _ => -10) 3 2) 0 4
    (by norm_num [flatFetchEnv])
    (by
      rw [terrainAngle_flatFetchEnv _ _ _ _ _ (by norm_num)]
      norm_num [flatFetchEnv])
  refine ⟨?_, h.2⟩
  rw [h.1]
  norm_num [flatFetchEnv]

/-- C1: the batched elevation lookup preserves length and order only when
every chunk succeeds (first conjunct: with a per-point elevation oracle
and all chunks succeeding, the reassembled list is exactly the pointwise
image of the input, length N, index i ↔ point i).  When a chunk fails the
source drops its entries entirely instead of treating them as missing:
with 101 points where the first chunk (points 0–99) fails and the second
chunk (point 100) succeeds, `all_results` is the single elevation of
point 100 — length 1 ≠ 101 — which the subsequent `enumerate` pairing
then aligns with `distances[0]`, the distance of point 0. -/
theorem batch_lookup_alignment_bug :
    (∀ (f : ℕ → ℚ) (pts : List ℕ),
      allResults (fun c => some (c.map f)) pts = pts.map f) ∧
    allResults
        (fun c : List ℕ => if c.length = 100 then none else some (c.map (fun n => (n : ℚ))))
        (List.range 101) = [(100 : ℚ)] := by
  constructor
  · intro f pts
    exact allResults_success _ f (fun c => rfl) pts
  · have h101 : List.range 101 = List.range 100 ++ [100] := by
      rw [show (101 : ℕ) = 100 + 1 from rfl, List.range_succ]
    have hne : List.range 101 ≠ [] := by rw [h101]; simp
    unfold allResults
    rw [chunksOf100_cons _ hne]
    have htake : (List.range 101).take 100 = List.range 100 := by
      rw [h101]
      exact List.take_left' (by simp)
    have hdrop : (List.range 101).drop 100 = [100] := by
      rw [h101]
      exact List.drop_left' (by simp)
    rw [htake, hdrop]
    rw [chunksOf100_cons _ (by simp)]
    have ht2 : ([100] : List ℕ).take 100 = [100] := by simp
    have hd2 : ([100] : List ℕ).drop 100 = [] := by simp
    rw [ht2, hd2, chunksOf100_nil]
    simp only [List.foldl_cons, List.foldl_nil]
    norm_num

/-- C7 computation: the sample distances for `check_distance_km = 101`,
`step_km = 1` are `1, 2, ..., 101`. -/
theorem sampleDistances_1_101 :
    sampleDistances 1 101 = (List.range 101).map (fun i : ℕ => ((i : ℚ) + 1) * 1) := by
  unfold sampleDistances
  rw [if_pos (by norm_num : (0 : ℚ) < 1)]
  have h : Int.toNat ⌊(101 : ℚ) / 1⌋ = 101 := by norm_num; rfl
  rw [h]

/-- C7 computation: the first hundred of the 101 sample indices. -/
theorem take_range_101 : (List.range 101).take 100 = List.range 100 := by
  rw [show (101 : ℕ) = 100 + 1 from rfl, List.range_succ]
  exact List.take_left' (by simp)

/-- C7 computation: the last of the 101 sample indices. -/
theorem drop_range_101 : (List.range 101).drop 100 = [100] := by
  rw [show (101 : ℕ) = 100 + 1 from rfl, List.range_succ]
  exact List.drop_left' (by simp)

/-- C7 computation: with 101 points, a provider that rejects the
full-size first chunk (100 points) and answers elevation 100 for the
single point of the second chunk leaves `all_results = [100]`. -/
theorem allResults_badFetch :
    allResults
        (fun c : List ℚ => if c.length = 100 then none else some (c.map (fun _ => (100 : ℚ))))
        ((List.range 101).map (fun i : ℕ => ((i : ℚ) + 1) * 1)) = [100] := by
  unfold allResults
  rw [chunksOf100_cons _ (by simp)]
  rw [← List.map_take, take_range_101, ← List.map_drop, drop_range_101]
  rw [chunksOf100_cons _ (by simp)]
  simp only [List.map_cons, List.map_nil, List.take_succ_cons, List.take_nil,
    List.drop_succ_cons, List.drop_nil, chunksOf100_nil]
  simp only [List.foldl_cons, List.foldl_nil, List.length_map, List.length_range,
    List.length_cons, List.length_nil]
  norm_num

/-- C7 computation: at the failing input (101 samples, spacing 1 km out
to 101 km, observer elevation 0, first chunk failing, surviving elevation
100 m), the source pairs the surviving elevation with `distances[0] = 1`,
yielding the angle of 100 m at 1 km. -/
theorem horizon_angle_misaligned_value (atanDeg : ℚ → ℚ)
    (h1 : -90 < atanDeg (1 / 10)) :
    get_horizon_elevation_angle atanDeg (fun _ d => d)
      (fun c : List ℚ => if c.length = 100 then none else some (c.map (fun _ => (100 : ℚ))))
      0 0 101 1 = atanDeg (1 / 10) := by
  have hie : ((List.range 101).map (fun i : ℕ => ((i : ℚ) + 1) * 1)).isEmpty = false := by
    simp
  simp only [get_horizon_elevation_angle, sampleDistances_1_101, List.map_id']
  simp only [hie, Bool.false_eq_true, if_false]
  rw [allResults_badFetch]
  rw [show (101 : ℕ) = 100 + 1 from rfl, List.range_succ_eq_map]
  simp only [List.map_cons, List.zip_cons_cons, List.zip_nil_left, List.map_nil]
  have harg : ((100 : ℚ) - 0) / ((((0 : ℕ) : ℚ) + 1) * 1 * 1000) = 1 / 10 := by norm_num
  rw [harg, maxAngleFold_singleton _ h1]
  have hg : ¬ ((true = false) ∨ atanDeg (1 / 10) = -90) := by
    simp only [Bool.true_eq_false, false_or]
    exact ne_of_gt h1
  rw [if_neg hg]

/-- C7 computation: a mapped 101-element sample list is never empty. -/
theorem isEmpty_map_range_101 {β : Type} (f : ℕ → β) :
    ((List.range 101).map f).isEmpty = false := by
  simp

/-- C7 computation: at the same failing input, the spec-side reduction
pairs the surviving elevation 100 m with the distance of the point it was
requested for, `distances[100] = 101` km. -/
theorem spec_resolved_angle_value (atanDeg : ℚ → ℚ)
    (h2 : -90 < atanDeg (1 / 1010)) :
    specMaxResolvedAngle atanDeg (fun _ d => d)
      (fun c : List ℚ => if c.length = 100 then none else some (c.map (fun _ => (100 : ℚ))))
      0 0 101 1 = atanDeg (1 / 1010) := by
  simp only [specMaxResolvedAngle, sampleDistances_1_101, List.map_map, Function.comp]
  simp only [isEmpty_map_range_101, Bool.false_eq_true, if_false]
  rw [chunksOf100_cons _ (by simp)]
  rw [← List.map_take, take_range_101, ← List.map_drop, drop_range_101]
  simp only [List.map_cons, List.map_nil]
  rw [chunksOf100_cons _ (by simp)]
  simp only [List.take_succ_cons, List.take_nil, List.drop_succ_cons, List.drop_nil,
    chunksOf100_nil]
  simp only [List.foldl_cons, List.foldl_nil, List.map_map, Function.comp,
    List.map_cons, List.map_nil, List.length_map, List.length_range,
    List.length_cons, List.length_nil]
  norm_num
  rw [maxAngleFold_singleton _ h2]
  have hne : atanDeg (1 / 1010) ≠ -90 := ne_of_gt h2
  rw [one_div] at hne
  simp [hne]

/-- C7: `get_horizon_elevation_angle` never raises past its boundary and
returns exactly 0° when every chunk request fails (first conjunct, for
any configuration), but in a mixed-failure case it does NOT return the
maximum angle over the resolved samples: with 101 samples at 1 km spacing
out to 101 km, observer elevation 0, the first chunk (samples at
1..100 km) failing and the second chunk (the sample at 101 km, elevation
100 m) succeeding, the code returns the angle of 100 m at distance 1 km
(`atanDeg (1/10)`) while the maximum over the resolved samples is the
angle of 100 m at its own distance 101 km (`atanDeg (1/1010)`); for any
angle map separating the two ratios — the real arctangent is strictly
monotone, hence injective — the two values differ.  The hypotheses are
facts of `math.degrees ∘ math.atan`: its values exceed -90° and it is
injective. -/
theorem horizon_angle_misalignment (atanDeg : ℚ → ℚ)
    (h1 : -90 < atanDeg (1 / 10)) (h2 : -90 < atanDeg (1 / 1010))
    (h3 : atanDeg (1 / 10) ≠ atanDeg (1 / 1010)) :
    (∀ (P : Type) (proj : ℚ → ℚ → P) (fetch : List P → Option (List ℚ))
        (obs_alt azimuth check_distance_km step_km : ℚ),
      (∀ c, fetch c = none) →
      get_horizon_elevation_angle atanDeg proj fetch obs_alt azimuth
        check_distance_km step_km = 0) ∧
    get_horizon_elevation_angle atanDeg (fun _ d => d)
        (fun c : List ℚ => if c.length = 100 then none else some (c.map (fun _ => (100 : ℚ))))
        0 0 101 1 = atanDeg (1 / 10) ∧
    specMaxResolvedAngle atanDeg (fun _ d => d)
        (fun c : List ℚ => if c.length = 100 then none else some (c.map (fun _ => (100 : ℚ))))
        0 0 101 1 = atanDeg (1 / 1010) ∧
    get_horizon_elevation_angle atanDeg (fun _ d => d)
        (fun c : List ℚ => if c.length = 100 then none else some (c.map (fun _ => (100 : ℚ))))
        0 0 101 1 ≠
      specMaxResolvedAngle atanDeg (fun _ d => d)
        (fun c : List ℚ => if c.length = 100 then none else some (c.map (fun _ => (100 : ℚ))))
        0 0 101 1 := by
  refine ⟨fun P proj fetch obs_alt azimuth ck st hf =>
      horizonAngle_allFail atanDeg proj fetch hf obs_alt azimuth ck st,
    horizon_angle_misaligned_value atanDeg h1,
    spec_resolved_angle_value atanDeg h2, ?_⟩
  rw [horizon_angle_misaligned_value atanDeg h1, spec_resolved_angle_value atanDeg h2]
  exact h3

/-- C7 witness: instantiating the angle map with the identity (which,
like the arctangent, stays above -90 on these ratios and separates them)
exhibits the divergence on concrete rationals. -/
theorem horizon_angle_misalignment_witness :
    get_horizon_elevation_angle (fun x : ℚ => x) (fun _ d => d)
        (fun c : List ℚ => if c.length = 100 then none else some (c.map (fun _ => (100 : ℚ))))
        0 0 101 1 = 1 / 10 ∧
    specMaxResolvedAngle (fun x : ℚ => x) (fun _ d => d)
        (fun c : List ℚ => if c.length = 100 then none else some (c.map (fun _ => (100 : ℚ))))
        0 0 101 1 = 1 / 1010 ∧
    get_horizon_elevation_angle (fun x : ℚ => x) (fun _ d => d)
        (fun c : List ℚ => if c.length = 100 then none else some (c.map (fun _ => (100 : ℚ))))
        0 0 101 1 ≠
      specMaxResolvedAngle (fun x : ℚ => x) (fun _ d => d)
        (fun c : List ℚ => if c.length = 100 then none else some (c.map (fun _ => (100 : ℚ))))
        0 0 101 1 := by
  have h := horizon_angle_misalignment (fun x : ℚ => x)
    (by norm_num) (by norm_num) (by norm_num)
  exact ⟨h.2.1, h.2.2.1, h.2.2.2⟩

/-- C8: projecting any origin with latitude in the WGS-84 domain
[-90°, 90°] over distance 0 km returns the origin unchanged, for every
longitude and every bearing: the latitude formula collapses to
`arcsin (sin lat_rad) = lat_rad` and the longitude increment to
`atan2 0 (cos² lat_rad) = 0`. -/
theorem calculate_destination_zero_distance (lat lon bearing_deg : ℝ)
    (h1 : -90 ≤ lat) (h2 : lat ≤ 90) :
    calculate_destination lat lon 0 bearing_deg = (lat, lon) := by
  have hpi : (0 : ℝ) < Real.pi := Real.pi_pos
  have hlb : -(Real.pi / 2) ≤ lat * Real.pi / 180 := by
    have hm : 0 ≤ (lat + 90) * Real.pi := mul_nonneg (by linarith) (le_of_lt hpi)
    nlinarith
  have hub : lat * Real.pi / 180 ≤ Real.pi / 2 := by
    have hm : 0 ≤ (90 - lat) * Real.pi := mul_nonneg (by linarith) (le_of_lt hpi)
    nlinarith
  have harcsin : Real.arcsin (Real.sin (lat * Real.pi / 180)) = lat * Real.pi / 180 :=
    Real.arcsin_sin hlb hub
  have hback : ∀ x : ℝ, x * Real.pi / 180 * 180 / Real.pi = x := by
    intro x
    field_simp
  simp only [calculate_destination, radians, degreesOf]
  have hz : (0 : ℝ) / 6371.0 = 0 := by norm_num
  rw [hz, Real.cos_zero, Real.sin_zero]
  have e1 : Real.sin (lat * Real.pi / 180) * 1 +
      Real.cos (lat * Real.pi / 180) * 0 * Real.cos (bearing_deg * Real.pi / 180) =
      Real.sin (lat * Real.pi / 180) := by ring
  rw [e1, harcsin]
  have e2 : Real.sin (bearing_deg * Real.pi / 180) * 0 * Real.cos (lat * Real.pi / 180) =
      (0 : ℝ) := by ring
  rw [e2]
  have hx : (1 : ℝ) - Real.sin (lat * Real.pi / 180) * Real.sin (lat * Real.pi / 180) =
      Real.cos (lat * Real.pi / 180) ^ 2 := by
    nlinarith [Real.sin_sq_add_cos_sq (lat * Real.pi / 180)]
  rw [hx, atan2_zero_nonneg _ (sq_nonneg _), add_zero, Prod.mk.injEq]
  exact ⟨hback lat, hback lon⟩

/-- C8 witness: the distance-zero identity at the concrete origin
(36° N, 138° E) with bearing 250°. -/
theorem calculate_destination_zero_distance_witness :
    (-90 : ℝ) ≤ 36 ∧ (36 : ℝ) ≤ 90 ∧
    calculate_destination 36 138 0 250 = (36, 138) :=
  ⟨by norm_num, by norm_num,
    calculate_destination_zero_distance 36 138 250 (by norm_num) (by norm_num)⟩
